import Mathlib

/-!
Verification of the trading-bot signal/regime engine.

Shallow embedding of `src/core/regime_detector_v2.py` (indicator library,
regime classifier, signal generator) and of `TradingBot.execute_signal` in
`src/bot.py`.  Python floats are modelled as exact rationals; numpy arrays
as `List ℚ`; `round(x, n)` as round-half-to-even on rationals.
-/

/-- `np.mean` of a list (mean of the empty list is taken as 0, matching the
convention that the guarded code never evaluates it on an empty slice). -/
def listMean (l : List ℚ) : ℚ := l.sum / l.length

/-- The trailing slice `arr[-k:]` of Python/numpy: the whole array when
`k = 0` or `k ≥ len`, the last `k` elements otherwise. -/
def sliceLast (l : List ℚ) (k : ℕ) : List ℚ :=
  if k = 0 then l else l.drop (l.length - k)

/-- `np.diff(prices)`: consecutive differences, element `i` is
`prices[i+1] - prices[i]`. -/
def diffList (l : List ℚ) : List ℚ := List.zipWith (fun b a => b - a) l.tail l

/-- `calculate_rsi(prices, period)` from `regime_detector_v2.py`. -/
def calculate_rsi (prices : List ℚ) (period : ℕ) : ℚ :=
  if prices.length < period + 1 then 50
  else
    let deltas := diffList prices
    let gains := deltas.map (fun d => if 0 < d then d else 0)
    let losses := deltas.map (fun d => if d < 0 then -d else 0)
    let avg_gain := listMean (sliceLast gains period)
    let avg_loss := listMean (sliceLast losses period)
    if avg_loss = 0 then 100
    else 100 - 100 / (1 + avg_gain / avg_loss)

/-- `calculate_sma(prices, period)` from `regime_detector_v2.py` (identical
code in `regime_detector.py`): trailing-`period` mean, last element if the
list is shorter than `period`, 0.0 if empty. -/
def calculate_sma (prices : List ℚ) (period : ℕ) : ℚ :=
  if prices.length < period then prices.getLastD 0
  else listMean (sliceLast prices period)

/-- `calculate_ema(prices, period)` from `regime_detector_v2.py`: seeded with
the first element, recurrence applied left-to-right. -/
def calculate_ema (prices : List ℚ) (period : ℕ) : ℚ :=
  if prices.length < 2 then prices.getLastD 0
  else
    let m : ℚ := 2 / ((period : ℚ) + 1)
    prices.tail.foldl (fun e p => (p - e) * m + e) (prices.headD 0)

/-- The local `ema(data, period)` helper inside `calculate_macd`. -/
def emaSeeded (data : List ℚ) (period : ℕ) : ℚ :=
  let m : ℚ := 2 / ((period : ℚ) + 1)
  data.tail.foldl (fun e p => (p - e) * m + e) (data.headD 0)

/-- `calculate_macd(prices, fast, slow, signal)` from `regime_detector_v2.py`:
returns (macd line, signal line, histogram); the signal line is 0.9 times the
macd line. -/
def calculate_macd (prices : List ℚ) (fast slow signal : ℕ) : ℚ × ℚ × ℚ :=
  if prices.length < slow + signal then (0, 0, 0)
  else
    let ema_fast := emaSeeded (sliceLast prices (fast + signal)) fast
    let ema_slow := emaSeeded (sliceLast prices (slow + signal)) slow
    let macd_line := ema_fast - ema_slow
    let signal_line := macd_line * (9 / 10)
    (macd_line, signal_line, macd_line - signal_line)

/-- The true-range series `tr` used by `calculate_adx` and `calculate_atr`:
`max(high[1:] - low[1:], |high[1:] - close[:-1]|, |low[1:] - close[:-1]|)`. -/
def trList (high low close : List ℚ) : List ℚ :=
  List.zipWith (fun hl c => max (hl.1 - hl.2) (max |hl.1 - c| |hl.2 - c|))
    (List.zip high.tail low.tail) close.dropLast

/-- The recurrence part of `wilder_smooth`: starting from the value `prev` at
the previous index, each remaining raw entry `a` contributes the value
`prev - prev/period + a` (note: the raw term is added un-divided). -/
def wilderFrom (period : ℕ) (prev : ℚ) : List ℚ → List ℚ
  | [] => []
  | a :: rest =>
    let r := prev - prev / (period : ℚ) + a
    r :: wilderFrom period r rest

/-- The inner `wilder_smooth(arr, period)`: zeros before index `period - 1`,
the mean of the first `period` entries at index `period - 1`, then the
recurrence `result[i] = result[i-1] - result[i-1]/period + arr[i]`.
(The numpy original indexes out of range when `arr` is shorter than `period`;
every call site guards `len(close) ≥ period + 1`, i.e. `arr.length ≥ period`,
so the model is only exercised on that region.) -/
def wilder_smooth (arr : List ℚ) (period : ℕ) : List ℚ :=
  let seed := listMean (arr.take period)
  List.replicate (period - 1) 0 ++ seed :: wilderFrom period seed (arr.drop period)

/-- `calculate_adx(high, low, close, period)` from `regime_detector_v2.py`. -/
def calculate_adx (high low close : List ℚ) (period : ℕ) : ℚ :=
  if close.length < period + 1 then 0
  else
    let tr := trList high low close
    let up_move := List.zipWith (fun b a => b - a) high.tail high
    let down_move := List.zipWith (fun a b => a - b) low low.tail
    let plus_dm := List.zipWith (fun u d => if d < u ∧ 0 < u then u else 0) up_move down_move
    let minus_dm := List.zipWith (fun u d => if u < d ∧ 0 < d then d else 0) up_move down_move
    let atr := wilder_smooth tr period
    let plus_di :=
      List.zipWith (fun s a => 100 * s / (if 0 < a then a else 1)) (wilder_smooth plus_dm period) atr
    let minus_di :=
      List.zipWith (fun s a => 100 * s / (if 0 < a then a else 1)) (wilder_smooth minus_dm period) atr
    let dx :=
      List.zipWith (fun p m => 100 * |p - m| / (if 0 < p + m then p + m else 1)) plus_di minus_di
    (wilder_smooth dx period).getLastD 0

/-- `calculate_atr(high, low, close, period)` from `regime_detector_v2.py`:
plain mean of the trailing `period` true ranges. -/
def calculate_atr (high low close : List ℚ) (period : ℕ) : ℚ :=
  if close.length < period + 1 then 0
  else
    let tr := trList high low close
    listMean (sliceLast tr period)

/-- The `RegimeType` literal values. -/
inductive Regime
  | BEAR_TREND
  | BULL_TREND
  | RANGING
  | NEUTRAL
deriving DecidableEq

/-- The `StrategyType` literal values. -/
inductive Strategy
  | RSI_MOMENTUM
  | MEAN_REVERSION
deriving DecidableEq

/-- `detect_regime(adx, price, sma_50, adx_trend_threshold, adx_range_threshold)`
from `regime_detector_v2.py`; the callers use the defaults 25 and 20. -/
def detect_regime (adx price sma_50 adx_trend_threshold adx_range_threshold : ℚ) :
    Regime × Strategy × ℚ :=
  if adx_trend_threshold < adx then
    if price < sma_50 then (Regime.BEAR_TREND, Strategy.RSI_MOMENTUM, 3 / 4)
    else (Regime.BULL_TREND, Strategy.MEAN_REVERSION, 1)
  else if adx < adx_range_threshold then (Regime.RANGING, Strategy.MEAN_REVERSION, 5 / 4)
  else (Regime.NEUTRAL, Strategy.MEAN_REVERSION, 1 / 2)

/-- Round-half-to-even to an integer, modelling Python's `round` on an exact
rational value. -/
def halfEvenRound (q : ℚ) : ℤ :=
  if q - ⌊q⌋ < 1 / 2 then ⌊q⌋
  else if 1 / 2 < q - ⌊q⌋ then ⌊q⌋ + 1
  else if ⌊q⌋ % 2 = 0 then ⌊q⌋ else ⌊q⌋ + 1

/-- Python's `round(q, ndigits)` on an exact rational value. -/
def pyRound (q : ℚ) (ndigits : ℕ) : ℚ :=
  (halfEvenRound (q * 10 ^ ndigits) : ℚ) / 10 ^ ndigits

/-- The `MarketState` dataclass of `regime_detector_v2.py`.  The
`volume_ratio` field of the source (current volume over its 20-bar SMA) is
called `volume_frac` here. -/
structure MarketState where
  price : ℚ
  sma_50 : ℚ
  ema_20 : ℚ
  ema_200 : ℚ
  rsi_7 : ℚ
  rsi_14 : ℚ
  adx : ℚ
  macd : ℚ
  macd_signal : ℚ
  macd_histogram : ℚ
  atr_14 : ℚ
  atr_percent : ℚ
  volume : ℚ
  volume_sma : ℚ
  volume_frac : ℚ
  regime : Regime
  strategy : Strategy
  position_size_multiplier : ℚ
deriving DecidableEq

/-- `analyze_market_v2(high, low, close, volume)` from `regime_detector_v2.py`
(the `symbol` argument is unused in the computation and omitted).  The source
reads `close[-1]` directly, so callers must pass a non-empty `close`. -/
def analyze_market_v2 (high low close volume : List ℚ) : MarketState :=
  let price := close.getLastD 0
  let sma_50 := calculate_sma close 50
  let ema_20 := calculate_ema close 20
  let ema_200 := calculate_ema close 200
  let rsi_7 := calculate_rsi close 7
  let rsi_14 := calculate_rsi close 14
  let adx := calculate_adx high low close 14
  let mcd := calculate_macd close 12 26 9
  let atr_14 := calculate_atr high low close 14
  let atr_percent := if 0 < price then atr_14 / price * 100 else 0
  let vol := volume.getLastD 0
  let vol_sma := calculate_sma volume 20
  let vol_frac := if 0 < vol_sma then vol / vol_sma else 1
  let rsp := detect_regime adx price sma_50 25 20
  let pm0 := rsp.2.2
  let pm1 :=
    if 5 < atr_percent then pm0 * (7 / 10)
    else if atr_percent < 2 then pm0 * (12 / 10)
    else pm0
  let pm2 :=
    if 3 / 2 < vol_frac then pm1 * (11 / 10)
    else if vol_frac < 1 / 2 then pm1 * (8 / 10)
    else pm1
  let pm := max (1 / 4) (min (3 / 2) pm2)
  { price := pyRound price 2
    sma_50 := pyRound sma_50 2
    ema_20 := pyRound ema_20 2
    ema_200 := pyRound ema_200 2
    rsi_7 := pyRound rsi_7 2
    rsi_14 := pyRound rsi_14 2
    adx := pyRound adx 2
    macd := pyRound mcd.1 4
    macd_signal := pyRound mcd.2.1 4
    macd_histogram := pyRound mcd.2.2 4
    atr_14 := pyRound atr_14 2
    atr_percent := pyRound atr_percent 2
    volume := pyRound vol 2
    volume_sma := pyRound vol_sma 2
    volume_frac := pyRound vol_frac 2
    regime := rsp.1
    strategy := rsp.2.1
    position_size_multiplier := pyRound pm 2 }

/-- The `action` values of `generate_signal`. -/
inductive TradeAction
  | BUY
  | SELL
  | HOLD
deriving DecidableEq

/-- The dict returned by `generate_signal`, restricted to the fields the
verified claims touch (`reasoning` strings and the echoed `state` sub-dict
are omitted). -/
structure Signal where
  action : TradeAction
  strategy : Strategy
  regime : Regime
  confidence : ℚ
  position_size : ℚ
deriving DecidableEq

/-- `generate_signal(state)` from `regime_detector_v2.py`. -/
def generate_signal (state : MarketState) : Signal :=
  let ac :=
    if state.strategy = Strategy.MEAN_REVERSION then
      let base :=
        if state.rsi_7 < 30 ∧ state.rsi_14 < 40 then (TradeAction.BUY, (70 : ℚ))
        else if 70 < state.rsi_7 ∧ 60 < state.rsi_14 then (TradeAction.SELL, 70)
        else (TradeAction.HOLD, 50)
      if base.1 = TradeAction.BUY ∧ 0 < state.macd_histogram then (base.1, base.2 + 10)
      else if base.1 = TradeAction.SELL ∧ state.macd_histogram < 0 then (base.1, base.2 + 10)
      else base
    else
      if 50 < state.rsi_14 ∧ 0 < state.macd_histogram ∧ state.ema_20 < state.price then
        (TradeAction.BUY, (65 : ℚ))
      else if state.rsi_14 < 50 ∧ state.macd_histogram < 0 ∧ state.price < state.ema_20 then
        (TradeAction.SELL, 65)
      else (TradeAction.HOLD, 50)
  let c1 := if 3 / 2 < state.volume_frac then ac.2 + 10 else ac.2
  let c2 := if state.regime = Regime.NEUTRAL then c1 - 15 else c1
  { action := ac.1
    strategy := state.strategy
    regime := state.regime
    confidence := max 0 (min 100 c2)
    position_size := state.position_size_multiplier }

/-- Modelled from the spec: the five-level `SignalType` enum lives in
`signal_engine.py`, which is not part of the given sources (only its callers
`bot.py`, `backtest.py`, `optimize.py` are); the spec names the levels
STRONG_LONG/LONG/NEUTRAL/SHORT/STRONG_SHORT. -/
inductive SignalType
  | STRONG_LONG
  | LONG
  | NEUTRAL
  | SHORT
  | STRONG_SHORT
deriving DecidableEq

/-- Modelled from the spec: the `CompositeSignal` record produced by the
missing `signal_engine.py`, restricted to the fields `execute_signal` reads
(direction, 0-100 confidence, price). -/
structure CompositeSignal where
  signal : SignalType
  confidence : ℚ
  price : ℚ
deriving DecidableEq

/-- Position direction stored by the paper-trading bot. -/
inductive Side
  | long
  | short
deriving DecidableEq

/-- An entry of `self.state['positions']` in `bot.py` (the wall-clock
`entry_time` field is omitted). -/
structure Position where
  entry_price : ℚ
  qty : ℚ
  side : Side
  signal_confidence : ℚ
deriving DecidableEq

/-- The bot state touched by `execute_signal`: `balance` and the `positions`
map (pair symbols are modelled as abstract numeric ids).  The `trades` list
is never touched by `execute_signal` and is omitted. -/
structure BotState where
  balance : ℚ
  positions : List (ℕ × Position)
deriving DecidableEq

/-- `TradingBot.execute_signal(pair, signal)` from `bot.py`;
`position_size_pct` is the bot's configuration attribute.  The early
`return` paths (NEUTRAL signal, confidence below 65, already-open position)
leave the state untouched. -/
def execute_signal (position_size_pct : ℚ) (st : BotState) (pair : ℕ)
    (sig : CompositeSignal) : BotState :=
  if sig.signal = SignalType.NEUTRAL then st
  else if sig.confidence < 65 then st
  else if (st.positions.lookup pair).isSome then st
  else
    let side :=
      if sig.signal = SignalType.LONG ∨ sig.signal = SignalType.STRONG_LONG then Side.long
      else Side.short
    let position_value := st.balance * position_size_pct
    let qty := position_value / sig.price
    { balance := st.balance
      positions := (pair, ⟨sig.price, qty, side, sig.confidence⟩) :: st.positions }

/-! ## Helper lemmas -/

lemma getLastD_mem_or {α : Type} : ∀ (l : List α) (d : α), l.getLastD d = d ∨ l.getLastD d ∈ l
  | [], _ => Or.inl rfl
  | a :: t, d => by
    rw [List.getLastD_cons d a t]
    rcases getLastD_mem_or t a with h | h
    · rw [h]; exact Or.inr (List.mem_cons_self a t)
    · exact Or.inr (List.mem_cons_of_mem a h)

lemma getLastD_mem {α : Type} : ∀ (l : List α) (d : α), l ≠ [] → l.getLastD d ∈ l
  | [], _, h => absurd rfl h
  | a :: t, d, _ => by
    rw [List.getLastD_cons d a t]
    rcases eq_or_ne t [] with rfl | ht
    · simp
    · exact List.mem_cons_of_mem a (getLastD_mem t a ht)

lemma of_mem_zipWith {α β γ : Type} {f : α → β → γ} :
    ∀ {l1 : List α} {l2 : List β} {x : γ}, x ∈ List.zipWith f l1 l2 →
      ∃ a, a ∈ l1 ∧ ∃ b, b ∈ l2 ∧ x = f a b := by
  intro l1
  induction l1 with
  | nil => intro l2 x hx; simp at hx
  | cons a t ih =>
    intro l2 x hx
    cases l2 with
    | nil => simp at hx
    | cons b t2 =>
      rw [List.zipWith_cons_cons] at hx
      rcases List.mem_cons.mp hx with rfl | hx
      · exact ⟨a, List.mem_cons_self a t, b, List.mem_cons_self b t2, rfl⟩
      · rcases ih hx with ⟨a', ha, b', hb, rfl⟩
        exact ⟨a', List.mem_cons_of_mem a ha, b', List.mem_cons_of_mem b hb, rfl⟩

lemma mem_of_mem_sliceLast {l : List ℚ} {k : ℕ} {x : ℚ} (h : x ∈ sliceLast l k) : x ∈ l := by
  unfold sliceLast at h
  split_ifs at h
  · exact h
  · exact List.mem_of_mem_drop h

lemma listMean_nonneg {l : List ℚ} (h : ∀ x ∈ l, 0 ≤ x) : 0 ≤ listMean l :=
  div_nonneg (List.sum_nonneg h) (Nat.cast_nonneg _)

lemma listMean_eq_zero {l : List ℚ} (h : ∀ x ∈ l, x = 0) : listMean l = 0 := by
  rw [listMean, List.sum_eq_zero h, zero_div]

lemma listMean_replicate {m : ℕ} (c : ℚ) (hm : m ≠ 0) :
    listMean (List.replicate m c) = c := by
  rw [listMean, List.sum_replicate, List.length_replicate, nsmul_eq_mul, mul_comm,
    mul_div_assoc, div_self (by exact_mod_cast hm), mul_one]

lemma wilderFrom_nonneg (period : ℕ) :
    ∀ (l : List ℚ) (prev : ℚ), 0 ≤ prev → (∀ x ∈ l, 0 ≤ x) →
      ∀ y ∈ wilderFrom period prev l, 0 ≤ y := by
  intro l
  induction l with
  | nil => intro prev _ _ y hy; simp [wilderFrom] at hy
  | cons a t ih =>
    intro prev hprev hl y hy
    have ha : 0 ≤ a := hl a (List.mem_cons_self a t)
    have hdiv : prev / (period : ℚ) ≤ prev := by
      rcases Nat.eq_zero_or_pos period with h0 | hpos
      · simp [h0, hprev]
      · have h1 : (1 : ℚ) ≤ (period : ℚ) := by exact_mod_cast hpos
        rw [div_le_iff₀ (by linarith)]
        exact le_mul_of_one_le_right hprev h1
    have hr : 0 ≤ prev - prev / (period : ℚ) + a := by linarith
    simp only [wilderFrom, List.mem_cons] at hy
    rcases hy with rfl | hy
    · exact hr
    · exact ih _ hr (fun x hx => hl x (List.mem_cons_of_mem a hx)) y hy

lemma wilderFrom_eq_zero (period : ℕ) :
    ∀ (l : List ℚ) (prev : ℚ), prev = 0 → (∀ x ∈ l, x = 0) →
      ∀ y ∈ wilderFrom period prev l, y = 0 := by
  intro l
  induction l with
  | nil => intro prev _ _ y hy; simp [wilderFrom] at hy
  | cons a t ih =>
    intro prev hprev hl y hy
    have ha : a = 0 := hl a (List.mem_cons_self a t)
    have hr : prev - prev / (period : ℚ) + a = 0 := by subst hprev ha; simp
    simp only [wilderFrom, List.mem_cons] at hy
    rcases hy with rfl | hy
    · exact hr
    · exact ih _ hr (fun x hx => hl x (List.mem_cons_of_mem a hx)) y hy

lemma wilder_smooth_nonneg {arr : List ℚ} {period : ℕ} (h : ∀ x ∈ arr, 0 ≤ x) :
    ∀ y ∈ wilder_smooth arr period, 0 ≤ y := by
  intro y hy
  have hseed : 0 ≤ listMean (arr.take period) :=
    listMean_nonneg fun x hx => h x (List.mem_of_mem_take hx)
  simp only [wilder_smooth, List.mem_append, List.mem_cons] at hy
  rcases hy with hy | hy | hy
  · rw [List.eq_of_mem_replicate hy]
  · rw [hy]; exact hseed
  · exact wilderFrom_nonneg period _ _ hseed
      (fun x hx => h x (List.mem_of_mem_drop hx)) y hy

lemma wilder_smooth_eq_zero {arr : List ℚ} {period : ℕ} (h : ∀ x ∈ arr, x = 0) :
    ∀ y ∈ wilder_smooth arr period, y = 0 := by
  intro y hy
  have hseed : listMean (arr.take period) = 0 :=
    listMean_eq_zero fun x hx => h x (List.mem_of_mem_take hx)
  simp only [wilder_smooth, List.mem_append, List.mem_cons] at hy
  rcases hy with hy | hy | hy
  · exact List.eq_of_mem_replicate hy
  · rw [hy, hseed]
  · exact wilderFrom_eq_zero period _ _ hseed
      (fun x hx => h x (List.mem_of_mem_drop hx)) y hy

/-! ## Claim theorems -/

/-- C1: with the default thresholds (trend 25, range 20), `detect_regime` is a
total function into the four-row decision table: `adx > 25 ∧ price < sma_50`
gives BEAR_TREND/RSI_MOMENTUM/0.75; `adx > 25 ∧ price ≥ sma_50` gives
BULL_TREND/MEAN_REVERSION/1.0; `adx < 20` gives RANGING/MEAN_REVERSION/1.25;
otherwise NEUTRAL/MEAN_REVERSION/0.5; and the boundary values `adx = 25` and
`adx = 20` both fall to NEUTRAL. -/
theorem detect_regime_decision_table (adx price sma_50 : ℚ) :
    (detect_regime adx price sma_50 25 20 =
        (Regime.BEAR_TREND, Strategy.RSI_MOMENTUM, 3 / 4) ∨
      detect_regime adx price sma_50 25 20 =
        (Regime.BULL_TREND, Strategy.MEAN_REVERSION, 1) ∨
      detect_regime adx price sma_50 25 20 =
        (Regime.RANGING, Strategy.MEAN_REVERSION, 5 / 4) ∨
      detect_regime adx price sma_50 25 20 =
        (Regime.NEUTRAL, Strategy.MEAN_REVERSION, 1 / 2)) ∧
    (25 < adx → price < sma_50 →
      detect_regime adx price sma_50 25 20 =
        (Regime.BEAR_TREND, Strategy.RSI_MOMENTUM, 3 / 4)) ∧
    (25 < adx → sma_50 ≤ price →
      detect_regime adx price sma_50 25 20 =
        (Regime.BULL_TREND, Strategy.MEAN_REVERSION, 1)) ∧
    (adx < 20 →
      detect_regime adx price sma_50 25 20 =
        (Regime.RANGING, Strategy.MEAN_REVERSION, 5 / 4)) ∧
    (20 ≤ adx → adx ≤ 25 →
      detect_regime adx price sma_50 25 20 =
        (Regime.NEUTRAL, Strategy.MEAN_REVERSION, 1 / 2)) ∧
    detect_regime 25 price sma_50 25 20 = (Regime.NEUTRAL, Strategy.MEAN_REVERSION, 1 / 2) ∧
    detect_regime 20 price sma_50 25 20 = (Regime.NEUTRAL, Strategy.MEAN_REVERSION, 1 / 2) := by
  refine ⟨?_, ?_, ?_, ?_, ?_, ?_, ?_⟩ <;>
    · intros
      unfold detect_regime
      split_ifs <;> first | tauto | linarith

/-- Witness for C1: each row of the table and both boundaries exercised at
concrete inputs. -/
theorem detect_regime_decision_table_cases :
    detect_regime 30 1 2 25 20 = (Regime.BEAR_TREND, Strategy.RSI_MOMENTUM, 3 / 4) ∧
    detect_regime 30 5 2 25 20 = (Regime.BULL_TREND, Strategy.MEAN_REVERSION, 1) ∧
    detect_regime 10 0 0 25 20 = (Regime.RANGING, Strategy.MEAN_REVERSION, 5 / 4) ∧
    detect_regime 22 0 0 25 20 = (Regime.NEUTRAL, Strategy.MEAN_REVERSION, 1 / 2) ∧
    detect_regime 25 0 0 25 20 = (Regime.NEUTRAL, Strategy.MEAN_REVERSION, 1 / 2) ∧
    detect_regime 20 0 0 25 20 = (Regime.NEUTRAL, Strategy.MEAN_REVERSION, 1 / 2) :=
  ⟨(detect_regime_decision_table 30 1 2).2.1 (by norm_num) (by norm_num),
   (detect_regime_decision_table 30 5 2).2.2.1 (by norm_num) (by norm_num),
   (detect_regime_decision_table 10 0 0).2.2.2.1 (by norm_num),
   (detect_regime_decision_table 22 0 0).2.2.2.2.1 (by norm_num) (by norm_num),
   (detect_regime_decision_table 25 0 0).2.2.2.2.2.1,
   (detect_regime_decision_table 20 0 0).2.2.2.2.2.2⟩

/-- C4 counterexample: on a 2-element array with period 5, `calculate_sma`
returns the last element 3, not the mean 2 of the available elements. -/
theorem calculate_sma_short_not_mean :
    calculate_sma [(1 : ℚ), 3] 5 = 3 ∧ calculate_sma [(1 : ℚ), 3] 5 ≠ ((1 : ℚ) + 3) / 2 := by
  norm_num [calculate_sma]

/-- C4 amended: for arrays shorter than `period`, `calculate_sma` returns the
last available element (0 for the empty array), not the mean of the available
elements; for arrays of length ≥ `period` it returns the mean of the trailing
`period` elements. -/
theorem calculate_sma_trailing_mean (prices : List ℚ) (period : ℕ) :
    (prices.length < period → calculate_sma prices period = prices.getLastD 0) ∧
    (period ≠ 0 → period ≤ prices.length →
      calculate_sma prices period =
        (prices.drop (prices.length - period)).sum / period) := by
  constructor
  · intro h
    rw [calculate_sma, if_pos h]
  · intro hp h
    rw [calculate_sma, if_neg (by omega), sliceLast, if_neg hp, listMean]
    have hlen : (prices.drop (prices.length - period)).length = period := by
      rw [List.length_drop]; omega
    rw [hlen]

/-- Witness for C4 amended: both branches at concrete inputs. -/
theorem calculate_sma_trailing_mean_example :
    calculate_sma [(1 : ℚ), 3] 5 = ([(1 : ℚ), 3]).getLastD 0 ∧
    calculate_sma [(1 : ℚ), 2, 3] 2 =
      (([(1 : ℚ), 2, 3]).drop (([(1 : ℚ), 2, 3]).length - 2)).sum / 2 :=
  ⟨(calculate_sma_trailing_mean [(1 : ℚ), 3] 5).1 (by norm_num),
   (calculate_sma_trailing_mean [(1 : ℚ), 2, 3] 2).2 (by norm_num) (by norm_num)⟩

/-- C6: for arrays of length ≥ slow + signal = 35 (defaults 12/26/9), the
signal line returned by `calculate_macd` equals 0.9 times the MACD line, and
the histogram equals MACD line minus signal line, i.e. 0.1 times the MACD
line. -/
theorem macd_signal_is_nine_tenths (prices : List ℚ) (h : 26 + 9 ≤ prices.length) :
    (calculate_macd prices 12 26 9).2.1 = 9 / 10 * (calculate_macd prices 12 26 9).1 ∧
    (calculate_macd prices 12 26 9).2.2 =
      (calculate_macd prices 12 26 9).1 - (calculate_macd prices 12 26 9).2.1 ∧
    (calculate_macd prices 12 26 9).2.2 = 1 / 10 * (calculate_macd prices 12 26 9).1 := by
  simp only [calculate_macd]
  rw [if_neg (by omega)]
  refine ⟨by ring, by ring, by ring⟩

/-- Witness for C6: a 35-bar window. -/
theorem macd_signal_is_nine_tenths_example :
    (calculate_macd (List.replicate 35 (100 : ℚ)) 12 26 9).2.1 =
      9 / 10 * (calculate_macd (List.replicate 35 (100 : ℚ)) 12 26 9).1 :=
  (macd_signal_is_nine_tenths (List.replicate 35 (100 : ℚ)) (by simp)).1

/-- C7: every indicator resolves short input to its neutral default instead
of failing: RSI is 50 below `period + 1` elements, ADX and ATR are 0 below
`period + 1` close elements, and SMA (below `period` elements) and the v2 EMA
(below its 2-element guard) return the last available price, 0 for the empty
array. -/
theorem indicator_neutral_defaults (prices high low close : List ℚ) (period : ℕ) :
    (prices.length < period + 1 → calculate_rsi prices period = 50) ∧
    (close.length < period + 1 → calculate_adx high low close period = 0) ∧
    (close.length < period + 1 → calculate_atr high low close period = 0) ∧
    (prices.length < period → calculate_sma prices period = prices.getLastD 0) ∧
    (prices.length < 2 → calculate_ema prices period = prices.getLastD 0) := by
  refine ⟨fun h => ?_, fun h => ?_, fun h => ?_, fun h => ?_, fun h => ?_⟩
  · rw [calculate_rsi, if_pos h]
  · rw [calculate_adx, if_pos h]
  · rw [calculate_atr, if_pos h]
  · rw [calculate_sma, if_pos h]
  · rw [calculate_ema, if_pos h]

/-- Witness for C7: all five defaults at concrete short inputs. -/
theorem indicator_neutral_defaults_example :
    calculate_rsi [(5 : ℚ)] 3 = 50 ∧
    calculate_adx [(1 : ℚ)] [(1 : ℚ)] [(1 : ℚ)] 3 = 0 ∧
    calculate_atr [(1 : ℚ)] [(1 : ℚ)] [(1 : ℚ)] 3 = 0 ∧
    calculate_sma [(5 : ℚ)] 3 = ([(5 : ℚ)]).getLastD 0 ∧
    calculate_ema [(5 : ℚ)] 3 = ([(5 : ℚ)]).getLastD 0 :=
  ⟨(indicator_neutral_defaults [(5 : ℚ)] [(1 : ℚ)] [(1 : ℚ)] [(1 : ℚ)] 3).1 (by norm_num),
   (indicator_neutral_defaults [(5 : ℚ)] [(1 : ℚ)] [(1 : ℚ)] [(1 : ℚ)] 3).2.1 (by norm_num),
   (indicator_neutral_defaults [(5 : ℚ)] [(1 : ℚ)] [(1 : ℚ)] [(1 : ℚ)] 3).2.2.1 (by norm_num),
   (indicator_neutral_defaults [(5 : ℚ)] [(1 : ℚ)] [(1 : ℚ)] [(1 : ℚ)] 3).2.2.2.1 (by norm_num),
   (indicator_neutral_defaults [(5 : ℚ)] [(1 : ℚ)] [(1 : ℚ)] [(1 : ℚ)] 3).2.2.2.2 (by norm_num)⟩

/-- C9: `execute_signal` treats a NEUTRAL signal, or any signal whose
confidence is below the 65 gate, as non-actionable: the bot state (balance
and positions) is returned unchanged. -/
theorem execute_signal_nonactionable (pct : ℚ) (st : BotState) (pair : ℕ)
    (sig : CompositeSignal) (h : sig.confidence < 65 ∨ sig.signal = SignalType.NEUTRAL) :
    execute_signal pct st pair sig = st := by
  rcases h with h | h
  · unfold execute_signal
    split_ifs <;> rfl
  · unfold execute_signal
    rw [if_pos h]

/-- Witness for C9: a NEUTRAL high-confidence signal and a low-confidence
LONG signal both leave a concrete state unchanged. -/
theorem execute_signal_nonactionable_example :
    execute_signal 1 ⟨100, []⟩ 0 ⟨SignalType.NEUTRAL, 80, 10⟩ = (⟨100, []⟩ : BotState) ∧
    execute_signal 1 ⟨100, []⟩ 0 ⟨SignalType.LONG, 40, 10⟩ = (⟨100, []⟩ : BotState) :=
  ⟨execute_signal_nonactionable 1 ⟨100, []⟩ 0 ⟨SignalType.NEUTRAL, 80, 10⟩ (Or.inr rfl),
   execute_signal_nonactionable 1 ⟨100, []⟩ 0 ⟨SignalType.LONG, 40, 10⟩
     (Or.inl (by norm_num))⟩

lemma diffList_eq_zero {prices : List ℚ} {c : ℚ} (hc : ∀ x ∈ prices, x = c) :
    ∀ x ∈ diffList prices, x = 0 := by
  intro x hx
  rcases of_mem_zipWith hx with ⟨a, ha, b, hb, rfl⟩
  rw [hc a (List.mem_of_mem_tail ha), hc b hb, sub_self]

lemma rsi_all_const {prices : List ℚ} {c : ℚ} {period : ℕ}
    (hc : ∀ x ∈ prices, x = c) (hlen : period + 1 ≤ prices.length) :
    calculate_rsi prices period = 100 := by
  have hzero :
      listMean (sliceLast ((diffList prices).map (fun d => if d < 0 then -d else 0))
        period) = 0 := by
    refine listMean_eq_zero fun x hx => ?_
    rcases List.mem_map.mp (mem_of_mem_sliceLast hx) with ⟨d, hd, rfl⟩
    rw [diffList_eq_zero hc d hd]
    norm_num
  simp only [calculate_rsi]
  rw [if_neg (by omega), if_pos hzero]

/-- C10: a constant price array of length ≥ period + 1 has all deltas zero,
so the zero-average-loss cap fires and `calculate_rsi` returns exactly 100,
not the neutral 50. -/
theorem rsi_flat_equals_100 {prices : List ℚ} {c : ℚ} {period : ℕ}
    (hc : ∀ x ∈ prices, x = c) (hlen : period + 1 ≤ prices.length) :
    calculate_rsi prices period = 100 ∧ calculate_rsi prices period ≠ 50 := by
  have h := rsi_all_const hc hlen
  exact ⟨h, by rw [h]; norm_num⟩

/-- Witness for C10: eight flat bars at 100 with period 7. -/
theorem rsi_flat_equals_100_example :
    calculate_rsi (List.replicate 8 (100 : ℚ)) 7 = 100 ∧
    calculate_rsi (List.replicate 8 (100 : ℚ)) 7 ≠ 50 :=
  rsi_flat_equals_100 (fun x hx => List.eq_of_mem_replicate hx) (by simp)

/-- C5 counterexample: a MEAN_REVERSION state with rsi_7 = 25, rsi_14 = 35
but regime NEUTRAL, zero MACD histogram and volume ratio 1 produces BUY with
confidence 55, below the claimed 70. -/
theorem oversold_neutral_confidence_cex :
    (generate_signal ⟨100, 100, 100, 100, 25, 35, 0, 0, 0, 0, 0, 0, 1000, 1000, 1,
        Regime.NEUTRAL, Strategy.MEAN_REVERSION, 1⟩).action = TradeAction.BUY ∧
    (generate_signal ⟨100, 100, 100, 100, 25, 35, 0, 0, 0, 0, 0, 0, 1000, 1000, 1,
        Regime.NEUTRAL, Strategy.MEAN_REVERSION, 1⟩).confidence = 55 ∧
    ¬70 ≤ (generate_signal ⟨100, 100, 100, 100, 25, 35, 0, 0, 0, 0, 0, 0, 1000, 1000, 1,
        Regime.NEUTRAL, Strategy.MEAN_REVERSION, 1⟩).confidence := by
  norm_num [generate_signal]

/-- C5 amended: a MEAN_REVERSION state with rsi_7 = 25 and rsi_14 = 35 always
yields action BUY with confidence ≥ 55 regardless of the other fields, and
confidence ≥ 70 whenever the regime is not NEUTRAL (the NEUTRAL regime
subtracts 15). -/
theorem oversold_mean_reversion_buy (s : MarketState)
    (hstrat : s.strategy = Strategy.MEAN_REVERSION) (h7 : s.rsi_7 = 25) (h14 : s.rsi_14 = 35) :
    (generate_signal s).action = TradeAction.BUY ∧
    55 ≤ (generate_signal s).confidence ∧
    (s.regime ≠ Regime.NEUTRAL → 70 ≤ (generate_signal s).confidence) := by
  simp only [generate_signal, hstrat, h7, h14]
  norm_num
  refine ⟨?_, ?_, ?_⟩
  · split_ifs <;> rfl
  · split_ifs <;> norm_num
  · intro hn
    split_ifs <;> first | norm_num | exact absurd (by assumption) hn

/-- Witness for C5 amended: same oversold state but in the RANGING regime;
the theorem gives BUY with confidence ≥ 70. -/
theorem oversold_mean_reversion_buy_example :
    (generate_signal ⟨100, 100, 100, 100, 25, 35, 0, 0, 0, 0, 0, 0, 1000, 1000, 1,
        Regime.RANGING, Strategy.MEAN_REVERSION, 1⟩).action = TradeAction.BUY ∧
    55 ≤ (generate_signal ⟨100, 100, 100, 100, 25, 35, 0, 0, 0, 0, 0, 0, 1000, 1000, 1,
        Regime.RANGING, Strategy.MEAN_REVERSION, 1⟩).confidence ∧
    (Regime.RANGING ≠ Regime.NEUTRAL → 70 ≤
      (generate_signal ⟨100, 100, 100, 100, 25, 35, 0, 0, 0, 0, 0, 0, 1000, 1000, 1,
        Regime.RANGING, Strategy.MEAN_REVERSION, 1⟩).confidence) :=
  oversold_mean_reversion_buy _ rfl rfl rfl

/-- C2 counterexample: on a 16-bar strictly-trending window (equal-length
high/low/close), `calculate_adx` returns 5225/49 ≈ 106.6 > 100: the inner
Wilder smoothing adds the raw DX term un-divided, so ADX is not bounded by
100. -/
theorem adx_unbounded_cex :
    100 < calculate_adx
      [(2 : ℚ), 4, 6, 8, 10, 12, 14, 16, 18, 20, 22, 24, 26, 28, 30, 32]
      [(1 : ℚ), 3, 5, 7, 9, 11, 13, 15, 17, 19, 21, 23, 25, 27, 29, 31]
      [(2 : ℚ), 4, 6, 8, 10, 12, 14, 16, 18, 20, 22, 24, 26, 28, 30, 32]
      14 := by
  have h : calculate_adx
      [(2 : ℚ), 4, 6, 8, 10, 12, 14, 16, 18, 20, 22, 24, 26, 28, 30, 32]
      [(1 : ℚ), 3, 5, 7, 9, 11, 13, 15, 17, 19, 21, 23, 25, 27, 29, 31]
      [(2 : ℚ), 4, 6, 8, 10, 12, 14, 16, 18, 20, 22, 24, 26, 28, 30, 32]
      14 = 5225 / 49 := by
    norm_num [calculate_adx, trList, wilder_smooth, wilderFrom, listMean,
      show List.replicate 13 (0 : ℚ) = [0, 0, 0, 0, 0, 0, 0, 0, 0, 0, 0, 0, 0] from rfl]
  rw [h]
  norm_num

/-- C2 amended: for equal-length high/low/close arrays, `calculate_adx` and
`calculate_atr` are non-negative; the upper bound 100 on ADX does not hold
(see the counterexample). -/
theorem adx_atr_nonneg (high low close : List ℚ) (period : ℕ)
    (hh : high.length = close.length) (hl : low.length = close.length) :
    0 ≤ calculate_adx high low close period ∧ 0 ≤ calculate_atr high low close period := by
  constructor
  · simp only [calculate_adx]
    split_ifs with hg
    · norm_num
    · rcases getLastD_mem_or
        (wilder_smooth (List.zipWith (fun p m => 100 * |p - m| / (if 0 < p + m then p + m else 1))
          (List.zipWith (fun s a => 100 * s / (if 0 < a then a else 1))
            (wilder_smooth (List.zipWith (fun u d => if d < u ∧ 0 < u then u else 0)
              (List.zipWith (fun b a => b - a) high.tail high)
              (List.zipWith (fun a b => a - b) low low.tail)) period)
            (wilder_smooth (trList high low close) period))
          (List.zipWith (fun s a => 100 * s / (if 0 < a then a else 1))
            (wilder_smooth (List.zipWith (fun u d => if u < d ∧ 0 < d then d else 0)
              (List.zipWith (fun b a => b - a) high.tail high)
              (List.zipWith (fun a b => a - b) low low.tail)) period)
            (wilder_smooth (trList high low close) period))) period) 0 with h | h
      · rw [h]
      · refine wilder_smooth_nonneg ?_ _ h
        intro x hx
        rcases of_mem_zipWith hx with ⟨p, _, m, _, rfl⟩
        have hden : (0 : ℚ) < if 0 < p + m then p + m else 1 := by
          split_ifs with hpm
          · exact hpm
          · norm_num
        exact div_nonneg (by positivity) hden.le
  · simp only [calculate_atr]
    split_ifs with hg
    · norm_num
    · refine listMean_nonneg fun x hx => ?_
      rcases of_mem_zipWith (mem_of_mem_sliceLast hx) with ⟨ab, _, cc, _, rfl⟩
      exact le_trans (abs_nonneg _) (le_trans (le_max_left _ _) (le_max_right _ _))

/-- Witness for C2 amended: a singleton window. -/
theorem adx_atr_nonneg_example :
    0 ≤ calculate_adx [(1 : ℚ)] [(1 : ℚ)] [(1 : ℚ)] 1 ∧
    0 ≤ calculate_atr [(1 : ℚ)] [(1 : ℚ)] [(1 : ℚ)] 1 :=
  adx_atr_nonneg [(1 : ℚ)] [(1 : ℚ)] [(1 : ℚ)] 1 rfl rfl

lemma le_halfEvenRound (q : ℚ) : ⌊q⌋ ≤ halfEvenRound q := by
  unfold halfEvenRound
  split_ifs <;> omega

lemma halfEvenRound_le_ceil (q : ℚ) : halfEvenRound q ≤ ⌈q⌉ := by
  unfold halfEvenRound
  have hfc : ⌊q⌋ ≤ ⌈q⌉ := Int.floor_le_ceil q
  split_ifs with h1 h2 h3
  · exact hfc
  all_goals
    have h12 : (1 : ℚ) / 2 ≤ q - ⌊q⌋ := not_lt.mp h1
    have hlt : (⌊q⌋ : ℚ) < q := by linarith
    have hcc : ⌊q⌋ < ⌈q⌉ := Int.lt_ceil.mpr hlt
    omega

lemma pyRound2_in_bounds {q : ℚ} (h1 : 1 / 4 ≤ q) (h2 : q ≤ 3 / 2) :
    1 / 4 ≤ pyRound q 2 ∧ pyRound q 2 ≤ 3 / 2 := by
  have hfl : (25 : ℤ) ≤ ⌊q * 10 ^ 2⌋ := Int.le_floor.mpr (by push_cast; linarith)
  have hcl : ⌈q * 10 ^ 2⌉ ≤ 150 := Int.ceil_le.mpr (by push_cast; linarith)
  have k1 : (25 : ℤ) ≤ halfEvenRound (q * 10 ^ 2) := le_trans hfl (le_halfEvenRound _)
  have k2 : halfEvenRound (q * 10 ^ 2) ≤ 150 := le_trans (halfEvenRound_le_ceil _) hcl
  have q1 : (25 : ℚ) ≤ (halfEvenRound (q * 10 ^ 2) : ℚ) := by exact_mod_cast k1
  have q2 : (halfEvenRound (q * 10 ^ 2) : ℚ) ≤ 150 := by exact_mod_cast k2
  rw [pyRound]
  constructor
  · rw [le_div_iff₀ (by norm_num)]
    rw [show ((1 : ℚ) / 4) * 10 ^ 2 = 25 from by norm_num]
    exact q1
  · rw [div_le_iff₀ (by norm_num)]
    rw [show ((3 : ℚ) / 2) * 10 ^ 2 = 150 from by norm_num]
    exact q2

/-- C8: the `position_size_multiplier` field produced by `analyze_market_v2`
always lies in [0.25, 1.5]: whatever the regime base multiplier and the
volatility and volume adjustment factors produce, the final value is clamped
to that interval (and the 2-digit rounding preserves it). -/
theorem position_size_multiplier_bounds (high low close volume : List ℚ)
    (hne : close ≠ []) :
    1 / 4 ≤ (analyze_market_v2 high low close volume).position_size_multiplier ∧
    (analyze_market_v2 high low close volume).position_size_multiplier ≤ 3 / 2 :=
  pyRound2_in_bounds (le_max_left _ _) (max_le (by norm_num) (min_le_left _ _))

/-- Witness for C8: a one-bar window. -/
theorem position_size_multiplier_bounds_example :
    1 / 4 ≤ (analyze_market_v2 [(100 : ℚ)] [(100 : ℚ)] [(100 : ℚ)]
      [(100 : ℚ)]).position_size_multiplier ∧
    (analyze_market_v2 [(100 : ℚ)] [(100 : ℚ)] [(100 : ℚ)]
      [(100 : ℚ)]).position_size_multiplier ≤ 3 / 2 :=
  position_size_multiplier_bounds [(100 : ℚ)] [(100 : ℚ)] [(100 : ℚ)] [(100 : ℚ)]
    (by simp)

lemma getLastD_zero_of_all {l : List ℚ} (h : ∀ x ∈ l, x = 0) : l.getLastD 0 = 0 := by
  rcases getLastD_mem_or l 0 with hh | hh
  · exact hh
  · exact h _ hh

lemma getLastD_replicate {n : ℕ} (c d : ℚ) (hn : n ≠ 0) :
    (List.replicate n c).getLastD d = c :=
  List.eq_of_mem_replicate (getLastD_mem _ d (by simp [hn]))

lemma halfEvenRound_intCast (z : ℤ) : halfEvenRound (z : ℚ) = z := by
  rw [halfEvenRound, Int.floor_intCast]
  rw [if_pos (by norm_num : (z : ℚ) - z < 1 / 2)]

lemma pyRound_of_int {q : ℚ} (z : ℤ) (d : ℕ) (hq : q * 10 ^ d = (z : ℚ)) :
    pyRound q d = q := by
  rw [pyRound, hq, halfEvenRound_intCast, ← hq]
  exact mul_div_cancel_right₀ q (by positivity)

lemma foldl_ema_const (m c : ℚ) :
    ∀ k, List.foldl (fun e p => (p - e) * m + e) c (List.replicate k c) = c
  | 0 => rfl
  | k + 1 => by
    rw [List.replicate_succ, List.foldl_cons, show (c - c) * m + c = c from by ring,
      foldl_ema_const m c k]

lemma emaSeeded_replicate (n period : ℕ) (c : ℚ) :
    emaSeeded (List.replicate (n + 1) c) period = c := by
  simp only [emaSeeded]
  rw [List.replicate_succ, List.tail_cons, List.headD_cons]
  exact foldl_ema_const _ c n

lemma calculate_macd_replicate {n : ℕ} (c : ℚ) (h : 35 ≤ n) :
    calculate_macd (List.replicate n c) 12 26 9 = (0, 0, 0) := by
  simp only [calculate_macd]
  rw [if_neg (by rw [List.length_replicate]; omega)]
  rw [sliceLast, sliceLast, if_neg (by norm_num), if_neg (by norm_num),
    List.length_replicate, List.drop_replicate, List.drop_replicate,
    show n - (n - (12 + 9)) = 21 from by omega,
    show n - (n - (26 + 9)) = 35 from by omega,
    emaSeeded_replicate 20 12 c, emaSeeded_replicate 34 26 c]
  norm_num

lemma calculate_sma_replicate {n period : ℕ} (c : ℚ) (hn : n ≠ 0) (hp : period ≠ 0) :
    calculate_sma (List.replicate n c) period = c := by
  simp only [calculate_sma, List.length_replicate]
  split_ifs with h
  · exact getLastD_replicate c 0 hn
  · rw [sliceLast, if_neg hp, List.length_replicate, List.drop_replicate]
    exact listMean_replicate c (by omega)

lemma calculate_adx_replicate (n period : ℕ) (c : ℚ) :
    calculate_adx (List.replicate n c) (List.replicate n c) (List.replicate n c) period = 0 := by
  simp only [calculate_adx]
  split_ifs with hguard
  · rfl
  · have hR : ∀ x ∈ List.replicate n c, x = c := fun x hx => List.eq_of_mem_replicate hx
    have htail : ∀ x ∈ (List.replicate n c).tail, x = c :=
      fun x hx => hR x (List.mem_of_mem_tail hx)
    have hup : ∀ x ∈ List.zipWith (fun b a => b - a)
        (List.replicate n c).tail (List.replicate n c), x = 0 := by
      intro x hx
      rcases of_mem_zipWith hx with ⟨a, ha, b, hb, rfl⟩
      rw [htail a ha, hR b hb, sub_self]
    have hdn : ∀ x ∈ List.zipWith (fun a b => a - b)
        (List.replicate n c) (List.replicate n c).tail, x = 0 := by
      intro x hx
      rcases of_mem_zipWith hx with ⟨a, ha, b, hb, rfl⟩
      rw [hR a ha, htail b hb, sub_self]
    have hpdm : ∀ x ∈ List.zipWith (fun u d => if d < u ∧ 0 < u then u else 0)
        (List.zipWith (fun b a => b - a) (List.replicate n c).tail (List.replicate n c))
        (List.zipWith (fun a b => a - b) (List.replicate n c) (List.replicate n c).tail),
        x = 0 := by
      intro x hx
      rcases of_mem_zipWith hx with ⟨u, hu, d, hd, rfl⟩
      rw [hup u hu, hdn d hd]
      norm_num
    have hmdm : ∀ x ∈ List.zipWith (fun u d => if u < d ∧ 0 < d then d else 0)
        (List.zipWith (fun b a => b - a) (List.replicate n c).tail (List.replicate n c))
        (List.zipWith (fun a b => a - b) (List.replicate n c) (List.replicate n c).tail),
        x = 0 := by
      intro x hx
      rcases of_mem_zipWith hx with ⟨u, hu, d, hd, rfl⟩
      rw [hup u hu, hdn d hd]
      norm_num
    refine getLastD_zero_of_all (wilder_smooth_eq_zero ?_)
    intro x hx
    rcases of_mem_zipWith hx with ⟨p, hp, m, hm, rfl⟩
    rcases of_mem_zipWith hp with ⟨s, hs, a, ha, rfl⟩
    rcases of_mem_zipWith hm with ⟨s2, hs2, a2, ha2, rfl⟩
    rw [wilder_smooth_eq_zero hpdm s hs, wilder_smooth_eq_zero hmdm s2 hs2]
    simp

lemma calculate_atr_replicate (n period : ℕ) (c : ℚ) :
    calculate_atr (List.replicate n c) (List.replicate n c) (List.replicate n c) period = 0 := by
  simp only [calculate_atr]
  split_ifs with h
  · rfl
  · refine listMean_eq_zero fun x hx => ?_
    rcases of_mem_zipWith (mem_of_mem_sliceLast hx) with ⟨⟨a1, a2⟩, hab, cc, hcc, rfl⟩
    obtain ⟨h1, h2⟩ := List.of_mem_zip hab
    rw [List.eq_of_mem_replicate (List.mem_of_mem_tail h1),
      List.eq_of_mem_replicate (List.mem_of_mem_tail h2),
      List.eq_of_mem_replicate (List.mem_of_mem_dropLast hcc)]
    simp

lemma flat60_fields :
    (analyze_market_v2 (List.replicate 60 (100 : ℚ)) (List.replicate 60 100)
        (List.replicate 60 100) (List.replicate 60 1000)).rsi_7 = 100 ∧
    (analyze_market_v2 (List.replicate 60 (100 : ℚ)) (List.replicate 60 100)
        (List.replicate 60 100) (List.replicate 60 1000)).rsi_14 = 100 ∧
    (analyze_market_v2 (List.replicate 60 (100 : ℚ)) (List.replicate 60 100)
        (List.replicate 60 100) (List.replicate 60 1000)).adx = 0 ∧
    (analyze_market_v2 (List.replicate 60 (100 : ℚ)) (List.replicate 60 100)
        (List.replicate 60 100) (List.replicate 60 1000)).regime = Regime.RANGING ∧
    (analyze_market_v2 (List.replicate 60 (100 : ℚ)) (List.replicate 60 100)
        (List.replicate 60 100) (List.replicate 60 1000)).strategy =
          Strategy.MEAN_REVERSION ∧
    (analyze_market_v2 (List.replicate 60 (100 : ℚ)) (List.replicate 60 100)
        (List.replicate 60 100) (List.replicate 60 1000)).macd_histogram = 0 ∧
    (analyze_market_v2 (List.replicate 60 (100 : ℚ)) (List.replicate 60 100)
        (List.replicate 60 100) (List.replicate 60 1000)).volume_frac = 1 := by
  have hcR : ∀ x ∈ List.replicate 60 (100 : ℚ), x = 100 :=
    fun x hx => List.eq_of_mem_replicate hx
  have hrsi7 : calculate_rsi (List.replicate 60 (100 : ℚ)) 7 = 100 :=
    rsi_all_const hcR (by simp)
  have hrsi14 : calculate_rsi (List.replicate 60 (100 : ℚ)) 14 = 100 :=
    rsi_all_const hcR (by simp)
  have hadx : calculate_adx (List.replicate 60 (100 : ℚ)) (List.replicate 60 100)
      (List.replicate 60 100) 14 = 0 := calculate_adx_replicate 60 14 100
  have hlast : (List.replicate 60 (100 : ℚ)).getLastD 0 = 100 :=
    getLastD_replicate 100 0 (by norm_num)
  have hsma : calculate_sma (List.replicate 60 (100 : ℚ)) 50 = 100 :=
    calculate_sma_replicate 100 (by norm_num) (by norm_num)
  have hvlast : (List.replicate 60 (1000 : ℚ)).getLastD 0 = 1000 :=
    getLastD_replicate 1000 0 (by norm_num)
  have hvsma : calculate_sma (List.replicate 60 (1000 : ℚ)) 20 = 1000 :=
    calculate_sma_replicate 1000 (by norm_num) (by norm_num)
  have hmacd : calculate_macd (List.replicate 60 (100 : ℚ)) 12 26 9 = (0, 0, 0) :=
    calculate_macd_replicate 100 (by norm_num)
  refine ⟨?_, ?_, ?_, ?_, ?_, ?_, ?_⟩
  · show pyRound (calculate_rsi (List.replicate 60 (100 : ℚ)) 7) 2 = 100
    rw [hrsi7]
    exact pyRound_of_int 10000 2 (by norm_num)
  · show pyRound (calculate_rsi (List.replicate 60 (100 : ℚ)) 14) 2 = 100
    rw [hrsi14]
    exact pyRound_of_int 10000 2 (by norm_num)
  · show pyRound (calculate_adx (List.replicate 60 (100 : ℚ)) (List.replicate 60 100)
      (List.replicate 60 100) 14) 2 = 0
    rw [hadx]
    exact pyRound_of_int 0 2 (by norm_num)
  · show (detect_regime
      (calculate_adx (List.replicate 60 (100 : ℚ)) (List.replicate 60 100)
        (List.replicate 60 100) 14)
      ((List.replicate 60 (100 : ℚ)).getLastD 0)
      (calculate_sma (List.replicate 60 (100 : ℚ)) 50) 25 20).1 = Regime.RANGING
    rw [hadx, hlast, hsma]
    norm_num [detect_regime]
  · show (detect_regime
      (calculate_adx (List.replicate 60 (100 : ℚ)) (List.replicate 60 100)
        (List.replicate 60 100) 14)
      ((List.replicate 60 (100 : ℚ)).getLastD 0)
      (calculate_sma (List.replicate 60 (100 : ℚ)) 50) 25 20).2.1 =
        Strategy.MEAN_REVERSION
    rw [hadx, hlast, hsma]
    norm_num [detect_regime]
  · show pyRound (calculate_macd (List.replicate 60 (100 : ℚ)) 12 26 9).2.2 4 = 0
    rw [hmacd]
    exact pyRound_of_int 0 4 (by norm_num)
  · show pyRound
      (if 0 < calculate_sma (List.replicate 60 (1000 : ℚ)) 20 then
        (List.replicate 60 (1000 : ℚ)).getLastD 0 /
          calculate_sma (List.replicate 60 (1000 : ℚ)) 20
      else 1) 2 = 1
    rw [hvsma, hvlast]
    rw [if_pos (by norm_num : (0 : ℚ) < 1000)]
    rw [show (1000 : ℚ) / 1000 = 1 from by norm_num]
    exact pyRound_of_int 100 2 (by norm_num)

/-- C3 counterexample: on the flat 60-bar window (all highs, lows and closes
100), the pipeline's RSI is exactly 100 (the zero-average-loss cap), not a
neutral value near 50, and the generated signal's action is SELL, not HOLD. -/
theorem flat_window_not_hold :
    (analyze_market_v2 (List.replicate 60 (100 : ℚ)) (List.replicate 60 100)
        (List.replicate 60 100) (List.replicate 60 1000)).rsi_14 = 100 ∧
    (analyze_market_v2 (List.replicate 60 (100 : ℚ)) (List.replicate 60 100)
        (List.replicate 60 100) (List.replicate 60 1000)).rsi_14 ≠ 50 ∧
    (generate_signal (analyze_market_v2 (List.replicate 60 (100 : ℚ))
        (List.replicate 60 100) (List.replicate 60 100)
        (List.replicate 60 1000))).action = TradeAction.SELL ∧
    (generate_signal (analyze_market_v2 (List.replicate 60 (100 : ℚ))
        (List.replicate 60 100) (List.replicate 60 100)
        (List.replicate 60 1000))).action ≠ TradeAction.HOLD := by
  obtain ⟨h7, h14, hadx, hreg, hstrat, hhist, hvol⟩ := flat60_fields
  refine ⟨h14, by rw [h14]; norm_num, ?_, ?_⟩ <;>
    · simp only [generate_signal, h7, h14, hreg, hstrat, hhist, hvol,
        eq_false (by decide : ¬Regime.RANGING = Regime.NEUTRAL)]
      norm_num
      all_goals decide

/-- C3 amended: on the flat 60-bar window the pipeline yields RSI exactly 100
for both periods (zero-average-loss cap, not a neutral 50), ADX 0, regime
RANGING, strategy MEAN_REVERSION, and the generated signal is SELL with
confidence 70 (RSI overbought rule), not HOLD. -/
theorem flat_window_pipeline :
    (analyze_market_v2 (List.replicate 60 (100 : ℚ)) (List.replicate 60 100)
        (List.replicate 60 100) (List.replicate 60 1000)).rsi_7 = 100 ∧
    (analyze_market_v2 (List.replicate 60 (100 : ℚ)) (List.replicate 60 100)
        (List.replicate 60 100) (List.replicate 60 1000)).rsi_14 = 100 ∧
    (analyze_market_v2 (List.replicate 60 (100 : ℚ)) (List.replicate 60 100)
        (List.replicate 60 100) (List.replicate 60 1000)).adx = 0 ∧
    (analyze_market_v2 (List.replicate 60 (100 : ℚ)) (List.replicate 60 100)
        (List.replicate 60 100) (List.replicate 60 1000)).regime = Regime.RANGING ∧
    (analyze_market_v2 (List.replicate 60 (100 : ℚ)) (List.replicate 60 100)
        (List.replicate 60 100) (List.replicate 60 1000)).strategy =
          Strategy.MEAN_REVERSION ∧
    (generate_signal (analyze_market_v2 (List.replicate 60 (100 : ℚ))
        (List.replicate 60 100) (List.replicate 60 100)
        (List.replicate 60 1000))).action = TradeAction.SELL ∧
    (generate_signal (analyze_market_v2 (List.replicate 60 (100 : ℚ))
        (List.replicate 60 100) (List.replicate 60 100)
        (List.replicate 60 1000))).confidence = 70 := by
  obtain ⟨h7, h14, hadx, hreg, hstrat, hhist, hvol⟩ := flat60_fields
  refine ⟨h7, h14, hadx, hreg, hstrat, ?_, ?_⟩ <;>
    · simp only [generate_signal, h7, h14, hreg, hstrat, hhist, hvol,
        eq_false (by decide : ¬Regime.RANGING = Regime.NEUTRAL)]
      norm_num
      all_goals decide
